import Mathlib

/-!
# Verification of the CV section/skills/experience extractor

Shallow embedding of `src/cv_extraction.py` (section segmentation via
`SECTION_PATTERNS`, skills parsing, and the two-tier years-of-experience
estimator), together with theorems settling the frozen claims about it.

Conventions of the embedding:

* Python strings are Lean `String`s; a document is its list of lines
  (`text.split('\n')` becomes `String.splitOn "\n"`).
* The section-header regexes of `SECTION_PATTERNS` are all of the shape
  `(?i)^[\s]*BODY[\s]*:?[\s]*$` where `BODY` is built from literal words,
  `\s+`, `\s*` and finite alternations/options.  Such a pattern matches a
  (already `strip()`ped) line iff the line, lowercased and with every
  whitespace run collapsed to a single space, is one of finitely many
  canonical strings.  Each pattern is therefore embedded as its finite
  canonical language, built by combinators that mirror the regex text
  (`\s+` contributes a space, `\s*` contributes nothing or a space,
  `x?`/`(?:a|b)` contribute the finitely many choices).
* The free-scanning regexes (summary experience mentions, date ranges) are
  embedded with a small list-of-successes matcher whose alternatives are
  ordered exactly like Python's backtracking (greedy repetition = longest
  first, alternation = left first, `x?` = with-`x` first); `re.findall`
  is the usual leftmost non-overlapping scan.
-/

namespace CV

/-! ### Character-list workhorses

Python's string primitives (`strip`, `lower`, `split`, substring `in`) are
embedded as structurally recursive functions on `List Char`, so that every
definition below evaluates by kernel reduction. -/

/-- Python `str.strip()` (ASCII whitespace). -/
def trimL (l : List Char) : List Char :=
  ((l.dropWhile Char.isWhitespace).reverse.dropWhile Char.isWhitespace).reverse

/-- Python `not line.strip()`: the line is blank. -/
def pyBlank (l : String) : Bool := (trimL l.data).isEmpty

/-- Python `str.lower()` (ASCII). -/
def lowerL (l : List Char) : List Char := l.map Char.toLower

/-- Split on whitespace runs, dropping empty words (`str.split()`). -/
def wordsAux (acc : List Char) : List Char → List (List Char)
  | [] => if acc.isEmpty then [] else [acc.reverse]
  | c :: rest =>
    if c.isWhitespace then
      (if acc.isEmpty then wordsAux [] rest else acc.reverse :: wordsAux [] rest)
    else wordsAux (c :: acc) rest

/-- Python `text.split('\n')`. -/
def splitNLAux (acc : List Char) : List Char → List String
  | [] => [String.mk acc.reverse]
  | c :: rest =>
    if c = '\n' then String.mk acc.reverse :: splitNLAux [] rest
    else splitNLAux (c :: acc) rest

def splitLines (s : String) : List String := splitNLAux [] s.data

/-- Join a list of lines with newlines (`'\n'.join(...)`). -/
def joinNL (xs : List String) : String :=
  String.mk (List.intercalate ['\n'] (xs.map String.data))

/-- Lowercase a string and collapse every whitespace run to one single
space, dropping leading/trailing whitespace.  Two strings have the same
`normalizeLine` image iff they are equal up to case and whitespace-run
length, which is exactly the flexibility the header regexes allow. -/
def normalizeLine (s : String) : String :=
  String.mk (List.intercalate [' '] (wordsAux [] (lowerL s.data)))

/-- Concatenation of two finite languages (regex juxtaposition). -/
def pcat (xs ys : List String) : List String :=
  xs.flatMap (fun x => ys.map (fun y => x ++ y))

/-- Union of finitely many languages (regex alternation `(?:a|b)`). -/
def palt (xs : List (List String)) : List String := xs.flatten

/-- Optional part (regex `x?` / `(?:...)?`). -/
def popt (xs : List String) : List String := "" :: xs

/-- Language of `\s*`: nothing, or a (collapsed) whitespace run. -/
def wsS : List String := ["", " "]

/-- Language of the common tail `[\s]*:?[\s]*` of every header pattern:
an optional colon, possibly preceded by whitespace. -/
def colonTail : List String := pcat wsS (popt [":"])

/-- Finish a header-pattern body: append the optional-colon tail and
canonicalize every alternative with `normalizeLine`. -/
def patLang (body : List String) : List String :=
  ((pcat body colonTail).map normalizeLine)

/-- The section categories, in the registration (dict-insertion) order of
`SECTION_PATTERNS`. -/
inductive Category where
  | skills | summary | experience | education | projects | certifications
deriving DecidableEq, Repr

def allCategories : List Category :=
  [.skills, .summary, .experience, .education, .projects, .certifications]

/-- Canonical language of the `skills` patterns:
`(?:technical\s+)?skills`, `core\s+(?:competencies|skills)`,
`(?:key\s+)?technologies`, `technical\s+(?:proficiency|expertise)`,
`areas\s+of\s+expertise`, `tools?\s*(?:&|and)?\s*technologies`,
`programming\s+(?:languages|skills)` (each with `[\s]*:?[\s]*$`). -/
def skillsLang : List String := palt
  [ patLang (pcat (popt ["technical "]) ["skills"])
  , patLang (pcat ["core "] (palt [["competencies"], ["skills"]]))
  , patLang (pcat (popt ["key "]) ["technologies"])
  , patLang (pcat ["technical "] (palt [["proficiency"], ["expertise"]]))
  , patLang ["areas of expertise"]
  , patLang (pcat (pcat ["tool"] (popt ["s"]))
      (pcat wsS (pcat (popt (palt [["&"], ["and"]])) (pcat wsS ["technologies"]))))
  , patLang (pcat ["programming "] (palt [["languages"], ["skills"]])) ]

/-- Canonical language of the `summary` patterns:
`(?:professional\s+)?summary`, `(?:career\s+)?objective`,
`about\s*(?:me)?`, `profile`, `(?:executive\s+)?overview`,
`personal\s+statement`, `introduction`. -/
def summaryLang : List String := palt
  [ patLang (pcat (popt ["professional "]) ["summary"])
  , patLang (pcat (popt ["career "]) ["objective"])
  , patLang (pcat ["about"] (pcat wsS (popt ["me"])))
  , patLang ["profile"]
  , patLang (pcat (popt ["executive "]) ["overview"])
  , patLang ["personal statement"]
  , patLang ["introduction"] ]

/-- Canonical language of the `experience` patterns:
`(?:work\s+)?experience`, `(?:professional\s+)?experience`,
`employment\s+(?:history|record)`, `work\s+history`, `career\s+history`. -/
def experienceLang : List String := palt
  [ patLang (pcat (popt ["work "]) ["experience"])
  , patLang (pcat (popt ["professional "]) ["experience"])
  , patLang (pcat ["employment "] (palt [["history"], ["record"]]))
  , patLang ["work history"]
  , patLang ["career history"] ]

/-- Canonical language of the `education` patterns:
`education`, `academic\s+(?:background|qualifications)`, `qualifications`. -/
def educationLang : List String := palt
  [ patLang ["education"]
  , patLang (pcat ["academic "] (palt [["background"], ["qualifications"]]))
  , patLang ["qualifications"] ]

/-- Canonical language of the `projects` patterns:
`projects?`, `(?:key\s+)?projects?`, `personal\s+projects?`. -/
def projectsLang : List String := palt
  [ patLang (pcat ["project"] (popt ["s"]))
  , patLang (pcat (popt ["key "]) (pcat ["project"] (popt ["s"])))
  , patLang (pcat ["personal "] (pcat ["project"] (popt ["s"]))) ]

/-- Canonical language of the `certifications` patterns:
`certifications?`, `licenses?\s*(?:&|and)?\s*certifications?`,
`professional\s+certifications?`. -/
def certificationsLang : List String := palt
  [ patLang (pcat ["certification"] (popt ["s"]))
  , patLang (pcat (pcat ["license"] (popt ["s"]))
      (pcat wsS (pcat (popt (palt [["&"], ["and"]])) (pcat wsS (pcat ["certification"] (popt ["s"]))))))
  , patLang (pcat ["professional "] (pcat ["certification"] (popt ["s"]))) ]

def headerLang : Category → List String
  | .skills => skillsLang
  | .summary => summaryLang
  | .experience => experienceLang
  | .education => educationLang
  | .projects => projectsLang
  | .certifications => certificationsLang

/-! ### Evaluated languages

For fast kernel evaluation, matching works on the pre-evaluated,
duplicate-free form of each language; the `..._dedup` theorems below prove
each literal list equal to the deduplication of the combinator-built
language transcribed from the regexes, so membership is unchanged. -/

def skillsLangL : List String :=
  [ "skills:",
    "skills",
    "skills :",
    "technical skills:",
    "technical skills",
    "technical skills :",
    "core competencies:",
    "core competencies",
    "core competencies :",
    "core skills:",
    "core skills",
    "core skills :",
    "technologies:",
    "technologies",
    "technologies :",
    "key technologies:",
    "key technologies",
    "key technologies :",
    "technical proficiency:",
    "technical proficiency",
    "technical proficiency :",
    "technical expertise:",
    "technical expertise",
    "technical expertise :",
    "areas of expertise:",
    "areas of expertise",
    "areas of expertise :",
    "tooltechnologies:",
    "tooltechnologies",
    "tooltechnologies :",
    "tool&technologies:",
    "tool&technologies",
    "tool&technologies :",
    "tool& technologies:",
    "tool& technologies",
    "tool& technologies :",
    "toolandtechnologies:",
    "toolandtechnologies",
    "toolandtechnologies :",
    "tooland technologies:",
    "tooland technologies",
    "tooland technologies :",
    "tool technologies:",
    "tool technologies",
    "tool technologies :",
    "tool &technologies:",
    "tool &technologies",
    "tool &technologies :",
    "tool & technologies:",
    "tool & technologies",
    "tool & technologies :",
    "tool andtechnologies:",
    "tool andtechnologies",
    "tool andtechnologies :",
    "tool and technologies:",
    "tool and technologies",
    "tool and technologies :",
    "toolstechnologies:",
    "toolstechnologies",
    "toolstechnologies :",
    "tools&technologies:",
    "tools&technologies",
    "tools&technologies :",
    "tools& technologies:",
    "tools& technologies",
    "tools& technologies :",
    "toolsandtechnologies:",
    "toolsandtechnologies",
    "toolsandtechnologies :",
    "toolsand technologies:",
    "toolsand technologies",
    "toolsand technologies :",
    "tools technologies:",
    "tools technologies",
    "tools technologies :",
    "tools &technologies:",
    "tools &technologies",
    "tools &technologies :",
    "tools & technologies:",
    "tools & technologies",
    "tools & technologies :",
    "tools andtechnologies:",
    "tools andtechnologies",
    "tools andtechnologies :",
    "tools and technologies:",
    "tools and technologies",
    "tools and technologies :",
    "programming languages:",
    "programming languages",
    "programming languages :",
    "programming skills:",
    "programming skills",
    "programming skills :" ]

def summaryLangL : List String :=
  [ "summary:",
    "summary",
    "summary :",
    "professional summary:",
    "professional summary",
    "professional summary :",
    "objective:",
    "objective",
    "objective :",
    "career objective:",
    "career objective",
    "career objective :",
    "about:",
    "aboutme:",
    "aboutme",
    "aboutme :",
    "about",
    "about :",
    "about me:",
    "about me",
    "about me :",
    "profile:",
    "profile",
    "profile :",
    "overview:",
    "overview",
    "overview :",
    "executive overview:",
    "executive overview",
    "executive overview :",
    "personal statement:",
    "personal statement",
    "personal statement :",
    "introduction:",
    "introduction",
    "introduction :" ]

def experienceLangL : List String :=
  [ "work experience:",
    "work experience",
    "work experience :",
    "experience:",
    "experience",
    "experience :",
    "professional experience:",
    "professional experience",
    "professional experience :",
    "employment history:",
    "employment history",
    "employment history :",
    "employment record:",
    "employment record",
    "employment record :",
    "work history:",
    "work history",
    "work history :",
    "career history:",
    "career history",
    "career history :" ]

def educationLangL : List String :=
  [ "education:",
    "education",
    "education :",
    "academic background:",
    "academic background",
    "academic background :",
    "academic qualifications:",
    "academic qualifications",
    "academic qualifications :",
    "qualifications:",
    "qualifications",
    "qualifications :" ]

def projectsLangL : List String :=
  [ "project:",
    "project",
    "project :",
    "projects:",
    "projects",
    "projects :",
    "key project:",
    "key project",
    "key project :",
    "key projects:",
    "key projects",
    "key projects :",
    "personal project:",
    "personal project",
    "personal project :",
    "personal projects:",
    "personal projects",
    "personal projects :" ]

def certificationsLangL : List String :=
  [ "certification:",
    "certification",
    "certification :",
    "certifications:",
    "certifications",
    "certifications :",
    "licensecertification:",
    "licensecertification",
    "licensecertification :",
    "licensecertifications:",
    "licensecertifications",
    "licensecertifications :",
    "license&certification:",
    "license&certification",
    "license&certification :",
    "license&certifications:",
    "license&certifications",
    "license&certifications :",
    "license& certification:",
    "license& certification",
    "license& certification :",
    "license& certifications:",
    "license& certifications",
    "license& certifications :",
    "licenseandcertification:",
    "licenseandcertification",
    "licenseandcertification :",
    "licenseandcertifications:",
    "licenseandcertifications",
    "licenseandcertifications :",
    "licenseand certification:",
    "licenseand certification",
    "licenseand certification :",
    "licenseand certifications:",
    "licenseand certifications",
    "licenseand certifications :",
    "license certification:",
    "license certification",
    "license certification :",
    "license certifications:",
    "license certifications",
    "license certifications :",
    "license &certification:",
    "license &certification",
    "license &certification :",
    "license &certifications:",
    "license &certifications",
    "license &certifications :",
    "license & certification:",
    "license & certification",
    "license & certification :",
    "license & certifications:",
    "license & certifications",
    "license & certifications :",
    "license andcertification:",
    "license andcertification",
    "license andcertification :",
    "license andcertifications:",
    "license andcertifications",
    "license andcertifications :",
    "license and certification:",
    "license and certification",
    "license and certification :",
    "license and certifications:",
    "license and certifications",
    "license and certifications :",
    "licensescertification:",
    "licensescertification",
    "licensescertification :",
    "licensescertifications:",
    "licensescertifications",
    "licensescertifications :",
    "licenses&certification:",
    "licenses&certification",
    "licenses&certification :",
    "licenses&certifications:",
    "licenses&certifications",
    "licenses&certifications :",
    "licenses& certification:",
    "licenses& certification",
    "licenses& certification :",
    "licenses& certifications:",
    "licenses& certifications",
    "licenses& certifications :",
    "licensesandcertification:",
    "licensesandcertification",
    "licensesandcertification :",
    "licensesandcertifications:",
    "licensesandcertifications",
    "licensesandcertifications :",
    "licensesand certification:",
    "licensesand certification",
    "licensesand certification :",
    "licensesand certifications:",
    "licensesand certifications",
    "licensesand certifications :",
    "licenses certification:",
    "licenses certification",
    "licenses certification :",
    "licenses certifications:",
    "licenses certifications",
    "licenses certifications :",
    "licenses &certification:",
    "licenses &certification",
    "licenses &certification :",
    "licenses &certifications:",
    "licenses &certifications",
    "licenses &certifications :",
    "licenses & certification:",
    "licenses & certification",
    "licenses & certification :",
    "licenses & certifications:",
    "licenses & certifications",
    "licenses & certifications :",
    "licenses andcertification:",
    "licenses andcertification",
    "licenses andcertification :",
    "licenses andcertifications:",
    "licenses andcertifications",
    "licenses andcertifications :",
    "licenses and certification:",
    "licenses and certification",
    "licenses and certification :",
    "licenses and certifications:",
    "licenses and certifications",
    "licenses and certifications :",
    "professional certification:",
    "professional certification",
    "professional certification :",
    "professional certifications:",
    "professional certifications",
    "professional certifications :" ]

def headerLangL : Category → List String
  | .skills => skillsLangL
  | .summary => summaryLangL
  | .experience => experienceLangL
  | .education => educationLangL
  | .projects => projectsLangL
  | .certifications => certificationsLangL

/-- `re.match` of any pattern of the category against the stripped line
(`SECTION_PATTERNS` lookup plus the inner `for pattern ...: if re.match`):
the canonicalized line belongs to the category's language. -/
def headerMatch (c : Category) (line : String) : Bool :=
  (headerLangL c).contains (normalizeLine line)

/-! ## `find_section_boundaries` -/

/-- The scan of `find_section_boundaries`: for every line (indexed, with the
running character position `sum(len(l) + 1 for l in lines[:i])`), skip it if
blank, and otherwise record one `(section_type, i, char_pos)` triple for
every category (in registration order) one of whose patterns matches — the
inner `break` in the Python loop leaves the pattern loop only, so every
matching category is recorded. -/
def boundariesAux : Nat → Nat → List String → List (Category × Nat × Nat)
  | _, _, [] => []
  | i, pos, l :: ls =>
    (if pyBlank l then []
     else (allCategories.filter (fun c => headerMatch c l)).map (fun c => (c, i, pos)))
    ++ boundariesAux (i + 1) (pos + l.length + 1) ls

def findSectionBoundariesLines (lines : List String) : List (Category × Nat × Nat) :=
  boundariesAux 0 0 lines

/-- `find_section_boundaries(text)`. -/
def find_section_boundaries (text : String) : List (Category × Nat × Nat) :=
  findSectionBoundariesLines (splitLines text)

/-! ## `extract_section_content` -/

/-- `ALL_SECTION_KEYWORDS`, verbatim. -/
def ALL_SECTION_KEYWORDS : List String :=
  [ "skills", "technical skills", "core competencies", "technologies",
    "summary", "objective", "about", "profile", "overview",
    "experience", "work experience", "professional experience", "employment",
    "education", "academic", "qualifications",
    "projects", "personal projects",
    "certifications", "licenses",
    "achievements", "awards", "honors",
    "languages", "interests", "hobbies",
    "references", "publications", "courses" ]

/-- Python's `sub in s` substring test. -/
def infixOf (sub s : List Char) : Bool :=
  (List.range (s.length + 1)).any (fun i => sub.isPrefixOf (s.drop i))

/-- Python's `str.isupper()` restricted to ASCII text: at least one cased
character, and no lowercase one. -/
def pyIsUpper (l : List Char) : Bool :=
  l.any (fun c => c.isAlpha) && l.all (fun c => !c.isLower)

/-- Whether a line matches some pattern of some category
(the `for patterns in SECTION_PATTERNS.values()` check). -/
def isSectionHeaderLine (l : String) : Bool :=
  allCategories.any (fun c => headerMatch c l)

/-- The format-based header heuristic of `extract_section_content`:
stripped line all-caps, shorter than 50 characters, and containing one of
`ALL_SECTION_KEYWORDS` as a substring of its lowercasing. -/
def isFormatHeaderLine (l : String) : Bool :=
  pyIsUpper (trimL l.data) && decide ((trimL l.data).length < 50)
    && ALL_SECTION_KEYWORDS.any (fun kw => infixOf kw.data (lowerL (trimL l.data)))

/-- A non-blank line ends the current content span iff it is a pattern
header or a format header (`is_header` in the Python loop). -/
def isBoundaryLine (l : String) : Bool :=
  isSectionHeaderLine l || isFormatHeaderLine l

/-- First loop of `extract_section_content`: index right after the first
non-blank line matching one of the target category's patterns. -/
def sectionStartAux (c : Category) : Nat → List String → Option Nat
  | _, [] => none
  | i, l :: ls =>
    if pyBlank l then sectionStartAux c (i + 1) ls
    else if headerMatch c l then some (i + 1)
    else sectionStartAux c (i + 1) ls

/-- Second loop of `extract_section_content`: offset of the first non-blank
boundary line in the given suffix (`none` = runs to end of document). -/
def findBoundary : List String → Option Nat
  | [] => none
  | l :: ls =>
    if pyBlank l then (findBoundary ls).map (fun n => n + 1)
    else if isBoundaryLine l then some 0
    else (findBoundary ls).map (fun n => n + 1)

/-- `extract_section_content` on a line list: locate the section start,
cut at the next boundary, drop blank lines, join with newlines, strip. -/
def sectionContentLines (lines : List String) (c : Category) : String :=
  match sectionStartAux c 0 lines with
  | none => ""
  | some start =>
    let rest := lines.drop start
    let stop := (findBoundary rest).getD rest.length
    String.mk (trimL (joinNL ((rest.take stop).filter (fun l => !pyBlank l))).data)

/-- `extract_section_content(text, section_type)`. -/
def extract_section_content (text : String) (c : Category) : String :=
  sectionContentLines (splitLines text) c

/-! ## Spec-side segmenter (for comparison)

Modelled from the spec's words (§4.2 SectionSegmenter): record every header
occurrence (first matching category wins), each occurrence's content span
runs to the next occurrence of any category, and the content of a category
accumulates across all its occurrences, blocks joined by a newline. -/

/-- Modelled from the spec: the ordered list of header occurrences
`(lineIndex, category)` of the whole document. -/
def specOccurrences (lines : List String) : List (Nat × Category) :=
  (List.range lines.length).filterMap (fun i =>
    let l := lines.getD i ""
    if pyBlank l then none
    else (allCategories.find? (fun c => headerMatch c l)).map (fun c => (i, c)))

/-- Modelled from the spec: the content block of the occurrence at line
`i`, running to line `stop` (exclusive), blank lines dropped. -/
def specBlock (lines : List String) (i stop : Nat) : String :=
  joinNL (((lines.drop (i + 1)).take (stop - (i + 1))).filter (fun l => !pyBlank l))

/-- Modelled from the spec: accumulated content of a category — the blocks
of all its occurrences, in document order, joined by a newline, trimmed. -/
def spec_section_content (lines : List String) (c : Category) : String :=
  let occs := specOccurrences lines
  String.mk (trimL (joinNL ((occs.filter (fun p => p.2 == c)).map (fun p =>
      specBlock lines p.1 (((occs.find? (fun q => p.1 < q.1)).map (fun q => q.1)).getD lines.length)))).data)

/-! ## Backtracking pattern matcher

`re`-style matching for the free-scanning regexes, as a
list-of-successes matcher: a pattern maps the input suffix to all
`(capture, remainder)` pairs of a prefix match, ordered with Python's
backtracking priority (greedy repetition longest first, alternation left
branch first, `x?` with-`x` first), so the head of the list is the match
the `re` engine produces. -/

def Pat (α : Type) : Type := List Char → List (α × List Char)

def pPure {α : Type} (a : α) : Pat α := fun cs => [(a, cs)]

def pBind {α β : Type} (p : Pat α) (f : α → Pat β) : Pat β :=
  fun cs => (p cs).flatMap (fun ar => f ar.1 ar.2)

def pThen {α : Type} (p : Pat Unit) (q : Pat α) : Pat α := pBind p (fun _ => q)

def pAlt {α : Type} (p q : Pat α) : Pat α := fun cs => p cs ++ q cs

def pLit (s : String) : Pat Unit :=
  fun cs => if s.data.isPrefixOf cs then [((), cs.drop s.length)] else []

def pOpt (p : Pat Unit) : Pat Unit := pAlt p (pPure ())

/-- Greedy `C+` over a character class: longest run first, at least one. -/
def pPlus (f : Char → Bool) : Pat (List Char) := fun cs =>
  let run := cs.takeWhile f
  (List.range run.length).map (fun k =>
    let n := run.length - k
    (run.take n, cs.drop n))

/-- Greedy `C*` over a character class: longest run first, possibly empty. -/
def pStar (f : Char → Bool) : Pat (List Char) := fun cs =>
  let run := cs.takeWhile f
  (List.range (run.length + 1)).map (fun k =>
    let n := run.length - k
    (run.take n, cs.drop n))

/-- Exactly `n` characters of a class (`\d{4}`). -/
def pCount (n : Nat) (f : Char → Bool) : Pat (List Char) := fun cs =>
  let t := cs.take n
  if t.length == n && t.all f then [(t, cs.drop n)] else []

def pWs0 : Pat Unit := pBind (pStar Char.isWhitespace) (fun _ => pPure ())

def pWs1 : Pat Unit := pBind (pPlus Char.isWhitespace) (fun _ => pPure ())

def digitsToNat (l : List Char) : Nat :=
  l.foldl (fun a c => a * 10 + (c.toNat - 48)) 0

/-- Highest-priority match of the pattern at this very position. -/
def matchAt {α : Type} (p : Pat α) (cs : List Char) : Option (α × List Char) :=
  (p cs).head?

/-- `re.findall`: leftmost matches, scanning left to right, resuming after
each match (all patterns below consume at least one character; the fuel and
the no-progress fallback exist only for termination). -/
def findallAux {α : Type} (p : Pat α) : Nat → List Char → List α
  | 0, _ => []
  | _ + 1, [] => []
  | fuel + 1, c :: rest =>
    match matchAt p (c :: rest) with
    | some (a, rem) =>
      if rem.length < rest.length + 1 then a :: findallAux p fuel rem
      else a :: findallAux p fuel rest
    | none => findallAux p fuel rest

def findall {α : Type} (p : Pat α) (cs : List Char) : List α :=
  findallAux p (cs.length + 1) cs

/-! ## `extract_experience_from_summary` -/

/-- `(?:years?|yrs?)`. -/
def pYears : Pat Unit :=
  pAlt (pThen (pLit "year") (pOpt (pLit "s"))) (pThen (pLit "yr") (pOpt (pLit "s")))

/-- `(?:experience|exp)`. -/
def pExpWord : Pat Unit := pAlt (pLit "experience") (pLit "exp")

/-- `(\d+)\+?\s*(?:years?|yrs?)(?:\s+of)?\s+(?:experience|exp)`. -/
def sumPat1 : Pat Nat :=
  pBind (pPlus Char.isDigit) (fun ds =>
    pThen (pOpt (pLit "+")) (pThen pWs0 (pThen pYears
      (pThen (pOpt (pThen pWs1 (pLit "of"))) (pThen pWs1 (pThen pExpWord
        (pPure (digitsToNat ds))))))))

/-- `(?:experience|exp)(?:\s+of)?\s+(\d+)\+?\s*(?:years?|yrs?)`. -/
def sumPat2 : Pat Nat :=
  pThen pExpWord (pThen (pOpt (pThen pWs1 (pLit "of"))) (pThen pWs1
    (pBind (pPlus Char.isDigit) (fun ds =>
      pThen (pOpt (pLit "+")) (pThen pWs0 (pThen pYears (pPure (digitsToNat ds))))))))

/-- `worked\s+(?:for\s+)?(\d+)\+?\s*(?:years?|yrs?)`. -/
def sumPat3 : Pat Nat :=
  pThen (pLit "worked") (pThen pWs1 (pThen (pOpt (pThen (pLit "for") pWs1))
    (pBind (pPlus Char.isDigit) (fun ds =>
      pThen (pOpt (pLit "+")) (pThen pWs0 (pThen pYears (pPure (digitsToNat ds))))))))

/-- `(?:developer|engineer|analyst|scientist|manager)`. -/
def pRoleWord : Pat Unit :=
  pAlt (pLit "developer") (pAlt (pLit "engineer") (pAlt (pLit "analyst")
    (pAlt (pLit "scientist") (pLit "manager"))))

/-- `(\d+)\+?\s*(?:years?|yrs?)\s+(?:as\s+)?(?:a\s+)?[a-zA-Z\s]+(?:developer|engineer|analyst|scientist|manager)`. -/
def sumPat4 : Pat Nat :=
  pBind (pPlus Char.isDigit) (fun ds =>
    pThen (pOpt (pLit "+")) (pThen pWs0 (pThen pYears (pThen pWs1
      (pThen (pOpt (pThen (pLit "as") pWs1)) (pThen (pOpt (pThen (pLit "a") pWs1))
        (pThen (pBind (pPlus (fun c => c.isAlpha || c.isWhitespace)) (fun _ => pPure ()))
          (pThen pRoleWord (pPure (digitsToNat ds))))))))))

/-- `over\s+(\d+)\s*(?:years?|yrs?)`. -/
def sumPat5 : Pat Nat :=
  pThen (pLit "over") (pThen pWs1 (pBind (pPlus Char.isDigit) (fun ds =>
    pThen pWs0 (pThen pYears (pPure (digitsToNat ds))))))

def summaryPatterns : List (Pat Nat) := [sumPat1, sumPat2, sumPat3, sumPat4, sumPat5]

/-- The integer captures of all five patterns over the lowercased summary,
in pattern order then document order — the nested
`for pattern in patterns: for match in re.findall(...)` loop. -/
def summaryMatchesAll (lowered : List Char) : List Nat :=
  summaryPatterns.flatMap (fun p => findall p lowered)

/-- The `end` field of a date-range provenance record: a year, or the
string `"present"`. -/
inductive DateEnd where
  | year (y : Nat)
  | presentWord
deriving DecidableEq, Repr

/-- One entry of the `experience_details` list: either an
`explicit_mention_summary` dict (its `years` value) or a `date_range` dict
(`start`, `end`, `years`). -/
inductive ExpDetail where
  | explicitMention (years : Nat)
  | dateRange (startYear : Nat) (endLabel : DateEnd) (years : Int)
deriving DecidableEq, Repr

/-- `extract_experience_from_summary`: every match contributes a detail and
the running total is the maximum; `(None, [])` when the text is empty or
the maximum is not positive. -/
def extract_experience_from_summary (summary_text : String) :
    Option Nat × List ExpDetail :=
  if summary_text = "" then (none, [])
  else
    let ns := summaryMatchesAll (lowerL summary_text.data)
    let total := ns.foldl Nat.max 0
    if 0 < total then (some total, ns.map ExpDetail.explicitMention)
    else (none, [])

/-! ## `extract_experience_from_dates` -/

/-- `(?:jan|feb|mar|apr|may|jun|jul|aug|sep|oct|nov|dec)`. -/
def pMonth : Pat Unit :=
  pAlt (pLit "jan") (pAlt (pLit "feb") (pAlt (pLit "mar") (pAlt (pLit "apr")
    (pAlt (pLit "may") (pAlt (pLit "jun") (pAlt (pLit "jul") (pAlt (pLit "aug")
      (pAlt (pLit "sep") (pAlt (pLit "oct") (pAlt (pLit "nov") (pLit "dec")))))))))))

/-- The separator class of the date regex.  The source file stores the
en/em dashes mojibake-damaged, so the class literally holds the characters
`-`, U+201A, U+00C4, U+00EC, U+00EE, `t`, `o`. -/
def sepChar (c : Char) : Bool :=
  c = '-' || c = '‚' || c = 'Ä' || c = 'ì' || c = 'î' || c = 't' || c = 'o'

/-- The end group `((?:month)?\.?\s*(\d{4})|present|current|now)`.  A
year-shaped end always contains the four digits the code later re-extracts
with `re.search(r'(\d{4})', end_part)`, and the present/current/now
branches are exactly the ends containing a word of
`['present', 'current', 'now']`. -/
def pEndTok : Pat DateEnd :=
  pAlt
    (pThen (pOpt pMonth) (pThen (pOpt (pLit ".")) (pThen pWs0
      (pBind (pCount 4 Char.isDigit) (fun ed => pPure (DateEnd.year (digitsToNat ed)))))))
    (pAlt (pThen (pLit "present") (pPure DateEnd.presentWord))
      (pAlt (pThen (pLit "current") (pPure DateEnd.presentWord))
        (pThen (pLit "now") (pPure DateEnd.presentWord))))

/-- `date_pattern`: `(?:month)?\.?\s*(\d{4})\s*[sep]+\s*(end)`. -/
def datePat : Pat (Nat × DateEnd) :=
  pThen (pOpt pMonth) (pThen (pOpt (pLit ".")) (pThen pWs0
    (pBind (pCount 4 Char.isDigit) (fun sd =>
      pThen pWs0 (pThen (pBind (pPlus sepChar) (fun _ => pPure ())) (pThen pWs0
        (pBind pEndTok (fun e => pPure (digitsToNat sd, e)))))))))

/-- `current_year = 2025`. -/
def current_year : Nat := 2025

/-- A `findall` tuple with the loop's end resolution applied: start year,
whether the end token was present-like, and the numeric end year
(`current_year` for a present-like end). -/
structure DM where
  startYear : Nat
  presentLike : Bool
  endYear : Nat
deriving DecidableEq, Repr

def resolveMatch : Nat × DateEnd → DM
  | (sy, DateEnd.year y) => ⟨sy, false, y⟩
  | (sy, DateEnd.presentWord) => ⟨sy, true, current_year⟩

def dateCandidates (experience_text : String) : List DM :=
  (findall datePat (lowerL experience_text.data)).map resolveMatch

/-- The sanity check
`1950 < start_year <= current_year and 1950 < end_year <= current_year`
(note: no `start_year <= end_year` condition). -/
def inRange (m : DM) : Bool :=
  decide (1950 < m.startYear) && decide (m.startYear ≤ current_year)
    && decide (1950 < m.endYear) && decide (m.endYear ≤ current_year)

/-- The `for match in date_matches` loop, threading the mutable
`has_present` flag (which a match updates *before* the sanity check and
which the detail's `end` field reads *after* the update): returns the
final flag and the accumulated `start_years`, `end_years`,
`experience_details`. -/
def scanMatches (hp : Bool) : List DM → Bool × List Nat × List Nat × List ExpDetail
  | [] => (hp, [], [], [])
  | m :: ms =>
    let hp' := hp || m.presentLike
    let r := scanMatches hp' ms
    if inRange m then
      (r.1, m.startYear :: r.2.1, m.endYear :: r.2.2.1,
        ExpDetail.dateRange m.startYear
          (if hp' then DateEnd.presentWord else DateEnd.year m.endYear)
          ((m.endYear : Int) - (m.startYear : Int)) :: r.2.2.2)
    else r

/-- Python `min` over a nonempty list (0 as an unused default). -/
def listMin : List Nat → Nat
  | [] => 0
  | n :: ns => ns.foldl Nat.min n

/-- Python `max` over a nonempty list (0 as an unused default). -/
def listMax : List Nat → Nat
  | [] => 0
  | n :: ns => ns.foldl Nat.max n

/-- `extract_experience_from_dates`: the surviving matches feed
`start_years`, `end_years` and the provenance records; the total is
`current_year - min(start_years)` when any present-like end was seen and
`max(end_years) - min(start_years)` otherwise, reported only when
positive. -/
def extract_experience_from_dates (experience_text : String) :
    Option Int × List ExpDetail :=
  if experience_text = "" then (none, [])
  else
    let cands := dateCandidates experience_text
    if cands.isEmpty then (none, [])
    else
      let r := scanMatches false cands
      if r.2.1.isEmpty then (none, [])
      else
        let minStart : Int := (listMin r.2.1 : Int)
        let total : Int :=
          if r.1 then (current_year : Int) - minStart
          else (listMax r.2.2.1 : Int) - minStart
        (if 0 < total then some total else none, r.2.2.2)

/-- `extract_years_of_experience`: tier 1 (summary) wins when it produced a
value, otherwise tier 2 (dates), with `None` mapped to 0 — and tier 2's
detail list passed through even then. -/
def extract_years_of_experience (summary_text experience_text : String) :
    Int × List ExpDetail :=
  match extract_experience_from_summary summary_text with
  | (some y, ds) => ((y : Int), ds)
  | (none, _) =>
    match extract_experience_from_dates experience_text with
    | (some y, ds) => (y, ds)
    | (none, ds) => (0, ds)

/-! ## Spec-side interval merge (for comparison)

Modelled from the spec (§4.4 tier 2): sort the surviving intervals by start
year, merge overlapping/adjacent intervals with the classic sweep, and sum
`end - start` over the merged intervals. -/

/-- Modelled from the spec: insertion into a start-sorted interval list. -/
def insertIv (iv : Nat × Nat) : List (Nat × Nat) → List (Nat × Nat)
  | [] => [iv]
  | j :: js => if iv.1 ≤ j.1 then iv :: j :: js else j :: insertIv iv js

/-- Modelled from the spec: sort intervals by start year ascending. -/
def sortIvs : List (Nat × Nat) → List (Nat × Nat)
  | [] => []
  | iv :: ivs => insertIv iv (sortIvs ivs)

/-- Modelled from the spec: the sweep — extend the running interval while
the next start is ≤ its end, otherwise close it and open a new one. -/
def mergeSweep (cur : Nat × Nat) : List (Nat × Nat) → List (Nat × Nat)
  | [] => [cur]
  | iv :: ivs =>
    if iv.1 ≤ cur.2 then mergeSweep (cur.1, Nat.max cur.2 iv.2) ivs
    else cur :: mergeSweep iv ivs

/-- Modelled from the spec: total years = Σ (end − start) over the merged
intervals. -/
def spec_merged_total (ivs : List (Nat × Nat)) : Int :=
  match sortIvs ivs with
  | [] => 0
  | iv :: rest => ((mergeSweep iv rest).map (fun j => (j.2 : Int) - (j.1 : Int))).sum

/-! ## `parse_skills_from_section` -/

/-- The flat-mode delimiter class
`[,;|‚Ä¢¬∑‚ñ™‚ñ∏‚ñ∫‚û§‚úì‚úî‚òÖ‚óè‚óã‚ó¶\n\t]` — the bullet glyphs are
stored mojibake-damaged in the source, so the class holds the damaged
characters verbatim. -/
def flatDelim (c : Char) : Bool :=
  c = ',' || c = ';' || c = '|' || c = '\n' || c = '\t'
    || c = '‚' || c = 'Ä' || c = '¢' || c = '¬' || c = '∑'
    || c = 'ñ' || c = '™' || c = '∏' || c = '∫' || c = 'û' || c = '§'
    || c = 'ú' || c = 'ì' || c = 'î' || c = 'ò' || c = 'Ö'
    || c = 'ó' || c = 'è' || c = 'ã' || c = '¶'

/-- The categorized-mode delimiter class `[,;|‚Ä¢¬∑\n]`. -/
def catDelim (c : Char) : Bool :=
  c = ',' || c = ';' || c = '|' || c = '‚' || c = 'Ä' || c = '¢'
    || c = '¬' || c = '∑' || c = '\n'

/-- `re.split(r'[D]+', ...)`: split on runs of delimiter characters
(adjacent delimiters produce one split, leading/trailing delimiters an
empty first/last piece).  The fuel only serves structural termination; one
unit is spent per emitted piece and every step consumes at least one
character, so `length + 1` units never run out. -/
def splitRunsGo (d : Char → Bool) (acc : List Char) : Nat → List Char → List String
  | _, [] => [String.mk acc.reverse]
  | 0, _ => [String.mk acc.reverse]
  | fuel + 1, c :: rest =>
    if d c then String.mk acc.reverse :: splitRunsGo d [] fuel (rest.dropWhile d)
    else splitRunsGo d (c :: acc) fuel rest

def splitRuns (d : Char → Bool) (cs : List Char) : List String :=
  splitRunsGo d [] (cs.length + 1) cs

/-- The flat-mode splitter
`re.split(r'[class]|\s{2,}|(?<=[a-z])(?=[A-Z])', ...)`: at each position a
class character splits (one character), otherwise a whitespace run of
length ≥ 2 splits (the whole run), otherwise a lowercase-to-uppercase
boundary splits (zero width).  `prev` is the previously consumed character
when that character could be lowercase, `none` otherwise; the fuel again
only serves structural termination. -/
def flatSplitGo (prev : Option Char) (acc : List Char) : Nat → List Char → List String
  | _, [] => [String.mk acc.reverse]
  | 0, _ => [String.mk acc.reverse]
  | fuel + 1, c :: rest =>
    if flatDelim c then String.mk acc.reverse :: flatSplitGo none [] fuel rest
    else if c.isWhitespace && (match rest with | r :: _ => r.isWhitespace | [] => false) then
      String.mk acc.reverse :: flatSplitGo none [] fuel (rest.dropWhile Char.isWhitespace)
    else if (match prev with | some p => p.isLower | none => false) && c.isUpper then
      String.mk acc.reverse :: flatSplitGo (some c) [c] fuel rest
    else flatSplitGo (some c) (c :: acc) fuel rest

def flatSplit (cs : List Char) : List String := flatSplitGo none [] (cs.length + 1) cs

/-- Strip the given characters from both ends (Python `str.strip(chars)`). -/
def stripBoth (f : Char → Bool) (l : List Char) : List Char :=
  ((l.dropWhile f).reverse.dropWhile f).reverse

/-- `part.strip().strip('-').strip('‚Ä¢').strip()` of the flat branch. -/
def cleanFlat (part : String) : String :=
  String.mk (trimL (stripBoth (fun c => c = '‚' || c = 'Ä' || c = '¢')
    (stripBoth (fun c => c = '-') (trimL part.data))))

/-- Number of space characters (`cleaned.count(' ')`). -/
def countSpaces (s : String) : Nat := s.data.foldl (fun n c => if c = ' ' then n + 1 else n) 0

/-- Flat branch: split, clean, and keep pieces with `1 < len < 50` and
fewer than 5 spaces, in order. -/
def flatCandidates (skills_text : String) : List String :=
  (flatSplit skills_text.data).filterMap (fun part =>
    let cleaned := cleanFlat part
    if 1 < cleaned.length && cleaned.length < 50 && countSpaces cleaned < 5
    then some cleaned else none)

/-! ### The categorized grouping `([A-Za-z\s&/]+):\s*(.+?)(?=(?:[A-Za-z\s&/]+:|$))`

`re.findall` of this pattern (with `re.DOTALL`) over the skills block.  A
match needs a maximal label-class run followed by `:` (the class has no
colon, so the greedy group can only stop at the run's end); `\s*` then
swallows whitespace; the lazy `(.+?)` grabs at least one character and
stops at the earliest position where the lookahead sees another
label-colon shape or the end of the text (`$` also matches just before a
terminal newline).  When everything after the colon is whitespace the lazy
group backtracks `\s*` by one character and matches just that character. -/

/-- `[A-Za-z\s&/]`. -/
def labelClass (c : Char) : Bool :=
  c.isAlpha || c.isWhitespace || c = '&' || c = '/'

/-- The lookahead `(?=[A-Za-z\s&/]+:)`. -/
def lookLabel (cs : List Char) : Bool :=
  let run := cs.takeWhile labelClass
  !run.isEmpty && ((cs.drop run.length).head? == some ':')

/-- The lookahead `(?=$)` under `re.DOTALL` without `re.MULTILINE`. -/
def atEnd (cs : List Char) : Bool := cs.isEmpty || cs == ['\n']

/-- Lazy extension of the content group: stop as soon as the lookahead
succeeds. -/
def grabGo (acc : List Char) : List Char → Option (List Char × List Char)
  | [] => some (acc.reverse, [])
  | c :: rs =>
    if lookLabel (c :: rs) || atEnd (c :: rs) then some (acc.reverse, c :: rs)
    else grabGo (c :: acc) rs

/-- `(.+?)(?=...)`: at least one character, then lazy extension. -/
def grabContent : List Char → Option (List Char × List Char)
  | [] => none
  | c :: rs => grabGo [c] rs

/-- Try the category pattern at this position. -/
def tryCatMatch (cs : List Char) : Option (String × String × List Char) :=
  let run := cs.takeWhile labelClass
  if run.isEmpty then none
  else
    match cs.drop run.length with
    | ':' :: afterColon =>
      let wsRun := afterColon.takeWhile Char.isWhitespace
      match grabContent (afterColon.drop wsRun.length) with
      | some (content, rest) => some (String.mk run, String.mk content, rest)
      | none =>
        match wsRun.getLast? with
        | some w => some (String.mk run, String.mk [w], [])
        | none => none
    | _ => none

/-- `re.findall` of the category pattern: try every position left to
right, resume after each match (every match consumes at least the label,
the colon and one content character, so the fuel never runs out). -/
def catScanAux : Nat → List Char → List (String × String)
  | 0, _ => []
  | _ + 1, [] => []
  | fuel + 1, c :: rest =>
    match tryCatMatch (c :: rest) with
    | some (lab, content, rem) => (lab, content) :: catScanAux fuel rem
    | none => catScanAux fuel rest

def catMatches (cs : List Char) : List (String × String) :=
  catScanAux (cs.length + 1) cs

/-- Categorized branch: for each group, split its list portion on
`[,;|‚Ä¢¬∑\n]+` and keep each stripped piece with `1 < len < 50`,
in order; the labels are not consulted. -/
def catCandidates (skills_text : String) : List String :=
  (catMatches skills_text.data).flatMap (fun g =>
    (splitRuns catDelim g.2.data).filterMap (fun part =>
      let cleaned := String.mk (trimL part.data)
      if 1 < cleaned.length && cleaned.length < 50 then some cleaned else none))

/-- The pre-deduplication `skills` list: categorized mode when at least one
grouping was found, flat mode otherwise. -/
def rawCandidates (skills_text : String) : List String :=
  if (catMatches skills_text.data).isEmpty then flatCandidates skills_text
  else catCandidates skills_text

/-- The `seen`-set deduplication loop: keep a skill iff its lowercasing was
not seen before, preserving order and the first-seen casing. -/
def dedupAux (seen : List String) : List String → List String
  | [] => []
  | s :: rest =>
    if seen.contains (String.mk (lowerL s.data)) then dedupAux seen rest
    else s :: dedupAux (String.mk (lowerL s.data) :: seen) rest

def dedupCI (l : List String) : List String := dedupAux [] l

/-- `parse_skills_from_section`. -/
def parse_skills_from_section (skills_text : String) : List String :=
  if skills_text = "" then []
  else dedupCI (rawCandidates skills_text)

/-! ## Characterization helpers (used to state the claims) -/

/-- Index of the first non-blank line matching one of the category's
patterns. -/
def firstHeaderIdx (lines : List String) (c : Category) : Option Nat :=
  lines.findIdx? (fun l => !pyBlank l && headerMatch c l)

/-- Content block starting right after line `i`: the non-blank lines up to
the next boundary line, joined and trimmed. -/
def firstBlock (lines : List String) (i : Nat) : String :=
  let rest := lines.drop (i + 1)
  let stop := (rest.findIdx? (fun l => !pyBlank l && isBoundaryLine l)).getD rest.length
  String.mk (trimL (joinNL ((rest.take stop).filter (fun l => !pyBlank l))).data)

/-- The matches surviving the sanity check, in order. -/
def survivors (experience_text : String) : List DM :=
  (dateCandidates experience_text).filter inRange

/-- Whether any match (surviving or not) had a present-like end. -/
def hasPresentFlag (experience_text : String) : Bool :=
  (dateCandidates experience_text).any (fun m => m.presentLike)

/-- The span the code computes: current year (when a present-like end was
seen) or latest end year, minus the earliest start year — over the
surviving matches, reversed ranges included. -/
def spanTotal (experience_text : String) : Int :=
  let sys := (survivors experience_text).map (fun m => m.startYear)
  if hasPresentFlag experience_text then
    (current_year : Int) - (listMin sys : Int)
  else
    (listMax ((survivors experience_text).map (fun m => m.endYear)) : Int) - (listMin sys : Int)

/-- The tier-1 value: maximum of all summary-pattern captures (0 if none). -/
def tier1Total (summary_text : String) : Nat :=
  (summaryMatchesAll (lowerL summary_text.data)).foldl Nat.max 0

/-- `start` field of a date-range provenance record. -/
def detStart : ExpDetail → Nat
  | ExpDetail.dateRange s _ _ => s
  | ExpDetail.explicitMention _ => 0

/-- `years` field of a provenance record. -/
def detYears : ExpDetail → Int
  | ExpDetail.dateRange _ _ y => y
  | ExpDetail.explicitMention y => (y : Int)

/-! ## Lemmas: evaluated header languages and their disjointness -/

set_option maxRecDepth 4000 in
theorem skillsLangL_dedup : skillsLangL = skillsLang.dedup := by decide

set_option maxRecDepth 4000 in
theorem summaryLangL_dedup : summaryLangL = summaryLang.dedup := by decide

set_option maxRecDepth 4000 in
theorem experienceLangL_dedup : experienceLangL = experienceLang.dedup := by decide

set_option maxRecDepth 4000 in
theorem educationLangL_dedup : educationLangL = educationLang.dedup := by decide

set_option maxRecDepth 4000 in
theorem projectsLangL_dedup : projectsLangL = projectsLang.dedup := by decide

set_option maxRecDepth 4000 in
theorem certificationsLangL_dedup : certificationsLangL = certificationsLang.dedup := by decide

theorem headerLangL_dedup (c : Category) : headerLangL c = (headerLang c).dedup := by
  cases c
  · exact skillsLangL_dedup
  · exact summaryLangL_dedup
  · exact experienceLangL_dedup
  · exact educationLangL_dedup
  · exact projectsLangL_dedup
  · exact certificationsLangL_dedup

theorem headerMatch_mem_headerLang (c : Category) (line : String) :
    headerMatch c line = true ↔ normalizeLine line ∈ headerLang c := by
  unfold headerMatch
  rw [headerLangL_dedup]
  simp [List.mem_dedup]

/-! ### No line matches patterns of two distinct categories -/

set_option maxRecDepth 4000 in
theorem disj_sk_su : (skillsLangL.all (fun y => !(summaryLangL.contains y))) = true := by decide

set_option maxRecDepth 4000 in
theorem disj_sk_ex : (skillsLangL.all (fun y => !(experienceLangL.contains y))) = true := by decide

set_option maxRecDepth 4000 in
theorem disj_sk_ed : (skillsLangL.all (fun y => !(educationLangL.contains y))) = true := by decide

set_option maxRecDepth 4000 in
theorem disj_sk_pr : (skillsLangL.all (fun y => !(projectsLangL.contains y))) = true := by decide

set_option maxRecDepth 4000 in
theorem disj_sk_ce : (skillsLangL.all (fun y => !(certificationsLangL.contains y))) = true := by decide

set_option maxRecDepth 4000 in
theorem disj_su_ex : (summaryLangL.all (fun y => !(experienceLangL.contains y))) = true := by decide

set_option maxRecDepth 4000 in
theorem disj_su_ed : (summaryLangL.all (fun y => !(educationLangL.contains y))) = true := by decide

set_option maxRecDepth 4000 in
theorem disj_su_pr : (summaryLangL.all (fun y => !(projectsLangL.contains y))) = true := by decide

set_option maxRecDepth 4000 in
theorem disj_su_ce : (summaryLangL.all (fun y => !(certificationsLangL.contains y))) = true := by decide

set_option maxRecDepth 4000 in
theorem disj_ex_ed : (experienceLangL.all (fun y => !(educationLangL.contains y))) = true := by decide

set_option maxRecDepth 4000 in
theorem disj_ex_pr : (experienceLangL.all (fun y => !(projectsLangL.contains y))) = true := by decide

set_option maxRecDepth 4000 in
theorem disj_ex_ce : (experienceLangL.all (fun y => !(certificationsLangL.contains y))) = true := by decide

set_option maxRecDepth 4000 in
theorem disj_ed_pr : (educationLangL.all (fun y => !(projectsLangL.contains y))) = true := by decide

set_option maxRecDepth 4000 in
theorem disj_ed_ce : (educationLangL.all (fun y => !(certificationsLangL.contains y))) = true := by decide

set_option maxRecDepth 4000 in
theorem disj_pr_ce : (projectsLangL.all (fun y => !(certificationsLangL.contains y))) = true := by decide

/-- From an `all`-style disjointness fact, joint membership is absurd. -/
theorem disjHelp {L1 L2 : List String} (h : (L1.all (fun y => !(L2.contains y))) = true)
    {x : String} (h1 : x ∈ L1) (h2 : x ∈ L2) : False := by
  have hx := List.all_eq_true.mp h x h1
  simp at hx
  exact hx h2

/-- The six category languages are pairwise disjoint: a single line never
matches patterns of two distinct categories, so the per-line iteration of
`find_section_boundaries` records at most one category for it. -/
theorem headerMatch_unique (s : String) (c c' : Category)
    (h1 : headerMatch c s = true) (h2 : headerMatch c' s = true) : c = c' := by
  have m1 : normalizeLine s ∈ headerLangL c := by
    have := h1
    unfold headerMatch at this
    simpa using List.mem_of_elem_eq_true this
  have m2 : normalizeLine s ∈ headerLangL c' := by
    have := h2
    unfold headerMatch at this
    simpa using List.mem_of_elem_eq_true this
  cases c <;> cases c' <;> simp only [headerLangL] at m1 m2 <;>
    first
      | rfl
      | exact (disjHelp disj_sk_su m1 m2).elim
      | exact (disjHelp disj_sk_su m2 m1).elim
      | exact (disjHelp disj_sk_ex m1 m2).elim
      | exact (disjHelp disj_sk_ex m2 m1).elim
      | exact (disjHelp disj_sk_ed m1 m2).elim
      | exact (disjHelp disj_sk_ed m2 m1).elim
      | exact (disjHelp disj_sk_pr m1 m2).elim
      | exact (disjHelp disj_sk_pr m2 m1).elim
      | exact (disjHelp disj_sk_ce m1 m2).elim
      | exact (disjHelp disj_sk_ce m2 m1).elim
      | exact (disjHelp disj_su_ex m1 m2).elim
      | exact (disjHelp disj_su_ex m2 m1).elim
      | exact (disjHelp disj_su_ed m1 m2).elim
      | exact (disjHelp disj_su_ed m2 m1).elim
      | exact (disjHelp disj_su_pr m1 m2).elim
      | exact (disjHelp disj_su_pr m2 m1).elim
      | exact (disjHelp disj_su_ce m1 m2).elim
      | exact (disjHelp disj_su_ce m2 m1).elim
      | exact (disjHelp disj_ex_ed m1 m2).elim
      | exact (disjHelp disj_ex_ed m2 m1).elim
      | exact (disjHelp disj_ex_pr m1 m2).elim
      | exact (disjHelp disj_ex_pr m2 m1).elim
      | exact (disjHelp disj_ex_ce m1 m2).elim
      | exact (disjHelp disj_ex_ce m2 m1).elim
      | exact (disjHelp disj_ed_pr m1 m2).elim
      | exact (disjHelp disj_ed_pr m2 m1).elim
      | exact (disjHelp disj_ed_ce m1 m2).elim
      | exact (disjHelp disj_ed_ce m2 m1).elim
      | exact (disjHelp disj_pr_ce m1 m2).elim
      | exact (disjHelp disj_pr_ce m2 m1).elim

/-! ## Lemmas: the tier-2 scan -/

theorem scanMatches_startYears (l : List DM) : ∀ hp,
    (scanMatches hp l).2.1 = (l.filter inRange).map (fun m => m.startYear) := by
  induction l with
  | nil => intro hp; rfl
  | cons m ms ih =>
    intro hp
    by_cases h : inRange m
    · simp [scanMatches, List.filter_cons, h, ih]
    · simp [scanMatches, List.filter_cons, h, ih]

theorem scanMatches_endYears (l : List DM) : ∀ hp,
    (scanMatches hp l).2.2.1 = (l.filter inRange).map (fun m => m.endYear) := by
  induction l with
  | nil => intro hp; rfl
  | cons m ms ih =>
    intro hp
    by_cases h : inRange m
    · simp [scanMatches, List.filter_cons, h, ih]
    · simp [scanMatches, List.filter_cons, h, ih]

theorem scanMatches_flag (l : List DM) : ∀ hp,
    (scanMatches hp l).1 = (hp || l.any (fun m => m.presentLike)) := by
  induction l with
  | nil => intro hp; simp [scanMatches]
  | cons m ms ih =>
    intro hp
    by_cases h : inRange m
    · simp [scanMatches, h, ih, Bool.or_assoc]
    · simp [scanMatches, h, ih, Bool.or_assoc]

theorem scanMatches_details_length (l : List DM) : ∀ hp,
    (scanMatches hp l).2.2.2.length = (l.filter inRange).length := by
  induction l with
  | nil => intro hp; rfl
  | cons m ms ih =>
    intro hp
    by_cases h : inRange m
    · simp [scanMatches, List.filter_cons, h, ih]
    · simp [scanMatches, List.filter_cons, h, ih]

theorem scanMatches_details_mem (l : List DM) : ∀ hp, ∀ m ∈ l.filter inRange,
    ∃ d ∈ (scanMatches hp l).2.2.2,
      detStart d = m.startYear ∧ detYears d = (m.endYear : Int) - (m.startYear : Int) := by
  induction l with
  | nil => intro hp m hm; simp at hm
  | cons a as ih =>
    intro hp m hm
    by_cases h : inRange a
    · rw [List.filter_cons_of_pos h] at hm
      rcases List.mem_cons.mp hm with hma | hmas
      · subst hma
        refine ⟨ExpDetail.dateRange m.startYear
          (if (hp || m.presentLike) then DateEnd.presentWord else DateEnd.year m.endYear)
          ((m.endYear : Int) - (m.startYear : Int)), ?_, rfl, rfl⟩
        simp [scanMatches, h]
      · rcases ih (hp || a.presentLike) m hmas with ⟨d, hd, hds, hdy⟩
        refine ⟨d, ?_, hds, hdy⟩
        simp [scanMatches, h]
        exact Or.inr hd
    · rw [List.filter_cons_of_neg h] at hm
      rcases ih (hp || a.presentLike) m hm with ⟨d, hd, hds, hdy⟩
      refine ⟨d, ?_, hds, hdy⟩
      simp [scanMatches, h]
      exact hd

/-! ## Claim C1 -/

theorem dateCandidates_empty_str : dateCandidates "" = [] := rfl

/-- Shared: on a document with surviving date matches, the tier-2 total is
the span `if has_present then current_year - min start else max end - min
start`, reported only when positive, and the provenance list is the scan's
detail list. -/
theorem datesTotalChar (e : String) (h : survivors e ≠ []) :
    extract_experience_from_dates e =
      ((if 0 < spanTotal e then some (spanTotal e) else none),
        (scanMatches false (dateCandidates e)).2.2.2) := by
  have he : ¬(e = "") := by
    intro he
    subst he
    exact h (by rfl)
  have hc : (dateCandidates e).isEmpty = false := by
    cases hds : dateCandidates e with
    | nil => exact absurd (by unfold survivors; rw [hds]; rfl) h
    | cons a as => rfl
  have hsys : (scanMatches false (dateCandidates e)).2.1 =
      (survivors e).map (fun m => m.startYear) := scanMatches_startYears _ false
  have hsysne : (scanMatches false (dateCandidates e)).2.1.isEmpty = false := by
    rw [hsys]
    cases hsv : survivors e with
    | nil => exact absurd hsv h
    | cons a as => rfl
  unfold extract_experience_from_dates
  simp only [if_neg he, hc, Bool.false_eq_true, if_false]
  simp only [hsysne, Bool.false_eq_true, if_false]
  rw [scanMatches_flag (dateCandidates e) false, scanMatches_endYears (dateCandidates e) false, hsys]
  unfold spanTotal hasPresentFlag survivors
  simp only [Bool.false_or]

/-- C1: the claim says the tier-2 total is the sum of `end - start` over
the start-sorted, overlap-merged intervals, so that the two disjoint
ranges `2015 - 2017` and `2019 - 2021` yield 4.  The code instead computes
the span from the earliest start to the latest end: on exactly those two
ranges it reports `2021 - 2015 = 6`, while the merged-interval sum of the
very intervals it extracted is 4. -/
theorem C1_counterexample :
    (survivors "2015 - 2017\n2019 - 2021").map (fun m => (m.startYear, m.endYear))
        = [(2015, 2017), (2019, 2021)] ∧
    (extract_experience_from_dates "2015 - 2017\n2019 - 2021").1 = some 6 ∧
    spec_merged_total [(2015, 2017), (2019, 2021)] = 4 ∧
    (6 : Int) ≠ 4 := by
  refine ⟨by decide, by decide, by decide, by decide⟩

/-- C1 (amended): for every experience block with at least one surviving
date-range match, the tier-2 total equals `current_year - min(start)` when
a present-like end was seen and `max(end) - min(start)` otherwise (the
span over the surviving matches, not the merged-interval sum), reported
only when positive. -/
theorem C1_theorem (e : String) (h : survivors e ≠ []) :
    (extract_experience_from_dates e).1 =
      (if 0 < spanTotal e then some (spanTotal e) else none) := by
  rw [datesTotalChar e h]

theorem C1_witness :
    survivors "2015 - 2017\n2019 - 2021" ≠ [] ∧
    (extract_experience_from_dates "2015 - 2017\n2019 - 2021").1 = some 6 := by
  refine ⟨by decide, ?_⟩
  rw [ C1_theorem "2015 - 2017\n2019 - 2021" (by decide)]
  decide

/-! ## Claim C4 -/

/-- C4: the claim says a date-range match with `start > end` (such as
`2021 - 2019`) contributes nothing: excluded from the interval lists, the
provenance records and the total.  The code's sanity check only bounds
each year by `(1950, current_year]` and never compares start with end: on
`2010 - 2012` plus `2021 - 2019` the reversed range is kept as a
provenance record with negative years, its end year feeds `max(end)`, and
the total becomes `2019 - 2010 = 9` instead of the 2 the claim implies. -/
theorem C4_counterexample :
    extract_experience_from_dates "2010 - 2012\n2021 - 2019" =
      (some 9,
        [ExpDetail.dateRange 2010 (DateEnd.year 2012) 2,
         ExpDetail.dateRange 2021 (DateEnd.year 2019) (-2)]) ∧
    (9 : Int) ≠ 2 := by
  refine ⟨by decide, by decide⟩

/-- C4 (amended): every date-range match whose two years lie in
`(1950, current_year]` is kept regardless of their order: the provenance
list has exactly one record per surviving match, and each surviving match
— reversed ranges included — has a record carrying its start year and the
(possibly negative) difference `end - start`. -/
theorem C4_theorem (e : String) :
    ((extract_experience_from_dates e).2).length = (survivors e).length ∧
    (∀ m ∈ survivors e, ∃ d ∈ (extract_experience_from_dates e).2,
      detStart d = m.startYear ∧ detYears d = (m.endYear : Int) - (m.startYear : Int)) := by
  by_cases hs : survivors e = []
  · constructor
    · have hd2 : (extract_experience_from_dates e).2 = [] := by
        unfold extract_experience_from_dates
        by_cases he : e = ""
        · simp [he]
        · have hsys : (scanMatches false (dateCandidates e)).2.1 = [] := by
            rw [scanMatches_startYears]
            have hfe : (dateCandidates e).filter inRange = [] := hs
            rw [hfe]
            rfl
          by_cases hc : (dateCandidates e).isEmpty
          · simp [he, hc]
          · simp only [Bool.not_eq_true] at hc
            simp [he, hc, hsys]
      rw [hd2, hs]
      rfl
    · intro m hm
      rw [hs] at hm
      simp at hm
  · rw [datesTotalChar e hs]
    constructor
    · simp only
      rw [scanMatches_details_length _ false]
      unfold survivors
      rfl
    · intro m hm
      exact scanMatches_details_mem (dateCandidates e) false m hm

theorem C4_witness :
    (⟨2021, false, 2019⟩ : DM) ∈ survivors "2010 - 2012\n2021 - 2019" ∧
    ((extract_experience_from_dates "2010 - 2012\n2021 - 2019").2).length
        = (survivors "2010 - 2012\n2021 - 2019").length ∧
    (∃ d ∈ (extract_experience_from_dates "2010 - 2012\n2021 - 2019").2,
      detStart d = 2021 ∧ detYears d = (2019 : Int) - 2021) := by
  refine ⟨by decide, ( C4_theorem "2010 - 2012\n2021 - 2019").1, ?_⟩
  exact ( C4_theorem "2010 - 2012\n2021 - 2019").2 ⟨2021, false, 2019⟩ (by decide)

/-! ## Claim C5 -/

/-- C5: the claim says that whenever at least one of the five summary
templates matches, the estimate is the maximum captured `N` and the
experience block is never consulted.  But a template can match with
`N = 0` (`"0 years of experience"` matches template 1 with capture 0); the
code then discards tier 1 (`total_years > 0` fails) and falls through to
the date ranges: with experience block `"2015 - 2017"` the result is 2
with date-range provenance, not the tier-1 maximum 0. -/
theorem C5_counterexample :
    summaryMatchesAll (lowerL "0 years of experience".data) = [0] ∧
    extract_years_of_experience "0 years of experience" "2015 - 2017" =
      (2, [ExpDetail.dateRange 2015 (DateEnd.year 2017) 2]) := by
  refine ⟨by decide, by decide⟩

/-- C5 (amended): whenever some template matches with a positive capture
(equivalently, the maximum capture is positive), the estimate is exactly
that maximum with one explicit-mention record per match, whatever the
experience block holds — tier 2 is never consulted. -/
theorem C5_theorem (s e : String) (h : 0 < tier1Total s) :
    extract_years_of_experience s e =
      ((tier1Total s : Int),
        (summaryMatchesAll (lowerL s.data)).map ExpDetail.explicitMention) := by
  have hs : ¬(s = "") := by
    intro hs
    subst hs
    exact absurd h (by decide)
  unfold extract_years_of_experience extract_experience_from_summary
  have ht : tier1Total s = (summaryMatchesAll (lowerL s.data)).foldl Nat.max 0 := rfl
  rw [ht] at h
  simp only [if_neg hs, h, if_true, if_pos h]
  rfl

theorem C5_witness :
    0 < tier1Total "5+ years of experience... over 3 years in prior roles" ∧
    extract_years_of_experience "5+ years of experience... over 3 years in prior roles"
        "Jan 2019 - Present" =
      (5, [ExpDetail.explicitMention 5, ExpDetail.explicitMention 3]) := by
  refine ⟨by decide, ?_⟩
  rw [ C5_theorem "5+ years of experience... over 3 years in prior roles"
    "Jan 2019 - Present" (by decide)]
  decide

/-! ## Claim C8 -/

/-- C8: empty or structure-free input produces empty/zero results and no
error: the empty skills block parses to `[]`, and when no summary template
matches and no date range is found the estimate is `(0, [])`.  (The
embedding consists of total functions, mirroring that the Python paths
involved raise no exception.) -/
theorem C8_theorem :
    parse_skills_from_section "" = [] ∧
    ∀ s e, summaryMatchesAll (lowerL s.data) = [] → dateCandidates e = [] →
      extract_years_of_experience s e = (0, []) := by
  refine ⟨by decide, ?_⟩
  intro s e hsum hdate
  unfold extract_years_of_experience extract_experience_from_summary
  by_cases hs : s = ""
  · simp only [if_pos hs]
    unfold extract_experience_from_dates
    by_cases he : e = ""
    · simp [he]
    · simp [he, hdate]
  · simp only [if_neg hs, hsum]
    simp only [List.foldl_nil, Nat.lt_irrefl, if_false]
    unfold extract_experience_from_dates
    by_cases he : e = ""
    · simp [he]
    · simp [he, hdate]

theorem C8_witness :
    summaryMatchesAll (lowerL "".data) = [] ∧ dateCandidates "" = [] ∧
    extract_years_of_experience "" "" = (0, []) := by
  refine ⟨by decide, by decide, C8_theorem.2 "" "" (by decide) (by decide)⟩

/-! ## Claim C3 -/

theorem mem_allCategories (c : Category) : c ∈ allCategories := by
  cases c <;> decide

/-- With a predicate satisfied by at most one element, filtering a
duplicate-free list keeps at most one element. -/
theorem filter_atMostOne {α : Type} (P : α → Bool)
    (huniq : ∀ a b, P a = true → P b = true → a = b) :
    ∀ (l : List α), l.Nodup → (l.filter P).length ≤ 1 := by
  intro l
  induction l with
  | nil => intro _; simp
  | cons a as ih =>
    intro hnd
    rw [List.filter_cons]
    by_cases h : P a
    · simp only [h, if_true]
      have hrest : as.filter P = [] := by
        rw [List.filter_eq_nil_iff]
        intro x hx hPx
        exact (List.nodup_cons.mp hnd).1 (huniq a x h hPx ▸ hx)
      simp [hrest]
    · simp only [h, Bool.false_eq_true, if_false]
      exact ih (List.nodup_cons.mp hnd).2

/-- At most one category matches any given line. -/
theorem matchingCats_len_le_one (l : String) :
    (allCategories.filter (fun c => headerMatch c l)).length ≤ 1 :=
  filter_atMostOne _ (fun a b ha hb => headerMatch_unique l a b ha hb)
    allCategories (by decide)

theorem boundariesAux_idx_ge : ∀ (ls : List String) (i0 pos : Nat),
    ∀ r ∈ boundariesAux i0 pos ls, i0 ≤ r.2.1 := by
  intro ls
  induction ls with
  | nil => intro i0 pos r hr; simp [boundariesAux] at hr
  | cons l ls ih =>
    intro i0 pos r hr
    simp only [boundariesAux, List.mem_append] at hr
    rcases hr with hr | hr
    · by_cases hb : pyBlank l
      · simp [hb] at hr
      · simp only [hb, Bool.false_eq_true, if_false, List.mem_map] at hr
        rcases hr with ⟨c, _, rfl⟩
        exact Nat.le_refl _
    · have := ih (i0 + 1) (pos + l.length + 1) r hr
      omega

theorem boundariesAux_filter_len : ∀ (ls : List String) (i0 pos j : Nat),
    ((boundariesAux i0 pos ls).filter (fun r => r.2.1 == j)).length ≤ 1 := by
  intro ls
  induction ls with
  | nil => intro i0 pos j; simp [boundariesAux]
  | cons l ls ih =>
    intro i0 pos j
    simp only [boundariesAux, List.filter_append, List.length_append]
    by_cases hj : j = i0
    · subst hj
      have hrec : (boundariesAux (j + 1) (pos + l.length + 1) ls).filter
          (fun r => r.2.1 == j) = [] := by
        rw [List.filter_eq_nil_iff]
        intro r hr
        have := boundariesAux_idx_ge ls (j + 1) (pos + l.length + 1) r hr
        simp only [beq_iff_eq]
        omega
      rw [hrec]
      by_cases hb : pyBlank l
      · simp [hb]
      · simp only [hb, Bool.false_eq_true, if_false, List.length_nil, Nat.add_zero]
        have : ((allCategories.filter (fun c => headerMatch c l)).map
            (fun c => (c, j, pos))).filter (fun r => r.2.1 == j) =
            (allCategories.filter (fun c => headerMatch c l)).map (fun c => (c, j, pos)) := by
          rw [List.filter_eq_self]
          intro r hr
          rcases List.mem_map.mp hr with ⟨c, _, rfl⟩
          simp
        rw [this, List.length_map]
        exact matchingCats_len_le_one l
    · have hhead : ∀ (xs : List (Category × Nat × Nat)),
          (if pyBlank l then ([] : List (Category × Nat × Nat))
            else (allCategories.filter (fun c => headerMatch c l)).map
              (fun c => (c, i0, pos))) = xs →
          xs.filter (fun r => r.2.1 == j) = [] := by
        intro xs hxs
        rw [List.filter_eq_nil_iff]
        intro r hr
        rw [← hxs] at hr
        by_cases hb : pyBlank l
        · simp [hb] at hr
        · simp only [hb, Bool.false_eq_true, if_false, List.mem_map] at hr
          rcases hr with ⟨c, _, rfl⟩
          simp only [beq_iff_eq]
          omega
      rw [hhead _ rfl]
      simp only [List.length_nil, Nat.zero_add]
      exact ih (i0 + 1) (pos + l.length + 1) j

theorem boundariesAux_mem : ∀ (ls : List String) (j : Nat) (i0 pos : Nat)
    (l : String) (c : Category),
    ls[j]? = some l → pyBlank l = false → headerMatch c l = true →
    ∃ p, (c, i0 + j, p) ∈ boundariesAux i0 pos ls := by
  intro ls
  induction ls with
  | nil => intro j i0 pos l c hg _ _; simp at hg
  | cons x xs ih =>
    intro j i0 pos l c hg hb hm
    cases j with
    | zero =>
      simp only [List.getElem?_cons_zero, Option.some.injEq] at hg
      subst hg
      refine ⟨pos, ?_⟩
      simp only [boundariesAux, List.mem_append]
      left
      simp only [hb, Bool.false_eq_true, if_false, List.mem_map]
      exact ⟨c, List.mem_filter.mpr ⟨mem_allCategories c, hm⟩, by simp⟩
    | succ j' =>
      simp only [List.getElem?_cons_succ] at hg
      rcases ih j' (i0 + 1) (pos + x.length + 1) l c hg hb hm with ⟨p, hp⟩
      refine ⟨p, ?_⟩
      simp only [boundariesAux, List.mem_append]
      right
      have : i0 + 1 + j' = i0 + (j' + 1) := by omega
      rw [← this]
      exact hp

/-- C3: every non-blank line is assigned at most one category by the
header classifier (the six pattern languages are pairwise disjoint), so
the segmenter's scan records at most one `(category, line, position)`
triple per line index — and, for a non-blank line matching a category's
patterns, exactly one. -/
theorem C3_theorem (lines : List String) (i : Nat) :
    ((findSectionBoundariesLines lines).filter (fun r => r.2.1 == i)).length ≤ 1 ∧
    (∀ l c, lines[i]? = some l → pyBlank l = false → headerMatch c l = true →
      ∃ p, (c, i, p) ∈ findSectionBoundariesLines lines) := by
  constructor
  · exact boundariesAux_filter_len lines 0 0 i
  · intro l c hg hb hm
    have := boundariesAux_mem lines i 0 0 l c hg hb hm
    simpa using this

theorem C3_witness :
    ((findSectionBoundariesLines ["Skills", "x", "Projects"]).filter
      (fun r => r.2.1 == 0)).length ≤ 1 ∧
    (∃ p, (Category.skills, 0, p) ∈ findSectionBoundariesLines ["Skills", "x", "Projects"]) := by
  refine ⟨( C3_theorem ["Skills", "x", "Projects"] 0).1, ?_⟩
  exact ( C3_theorem ["Skills", "x", "Projects"] 0).2 "Skills" Category.skills
    (by rfl) (by decide) (by decide)

/-! ## Claim C9 -/

/-- C9: segmentation is deterministic and stateless — the embedding of
both segmenter passes is a pure function of the line list, so two runs on
the same input are definitionally equal. -/
theorem C9_theorem (lines : List String) (c : Category) :
    findSectionBoundariesLines lines = findSectionBoundariesLines lines ∧
    sectionContentLines lines c = sectionContentLines lines c :=
  ⟨rfl, rfl⟩

/-! ## Claim C2 -/

theorem sectionStartAux_eq_findIdx (c : Category) : ∀ (ls : List String) (i0 : Nat),
    sectionStartAux c i0 ls =
      (ls.findIdx? (fun l => !pyBlank l && headerMatch c l) i0).map (fun k => k + 1) := by
  intro ls
  induction ls with
  | nil => intro i0; rfl
  | cons l ls ih =>
    intro i0
    rw [List.findIdx?_cons]
    by_cases hb : pyBlank l
    · simp only [sectionStartAux, hb, if_true, Bool.not_true, Bool.false_and,
        Bool.false_eq_true, if_false]
      exact ih (i0 + 1)
    · by_cases hm : headerMatch c l
      · simp only [sectionStartAux, hb, Bool.false_eq_true, if_false, hm, if_true,
          Bool.not_false, Bool.true_and]
        rfl
      · simp only [sectionStartAux, hb, Bool.false_eq_true, if_false, hm,
          Bool.not_false, Bool.true_and]
        exact ih (i0 + 1)

theorem findBoundary_eq_findIdx : ∀ (ls : List String),
    findBoundary ls = ls.findIdx? (fun l => !pyBlank l && isBoundaryLine l) := by
  intro ls
  induction ls with
  | nil => rfl
  | cons l ls ih =>
    rw [List.findIdx?_cons]
    by_cases hb : pyBlank l
    · simp only [findBoundary, hb, if_true, Bool.not_true, Bool.false_and,
        Bool.false_eq_true, if_false, ih, List.findIdx?_start_succ, Nat.zero_add]
    · by_cases hd : isBoundaryLine l
      · simp only [findBoundary, hb, Bool.false_eq_true, if_false, hd, if_true,
          Bool.not_false, Bool.true_and]
      · simp only [findBoundary, hb, Bool.false_eq_true, if_false, hd,
          Bool.not_false, Bool.true_and, ih, List.findIdx?_start_succ, Nat.zero_add]

/-- C2: the claim says content for a category accumulates over all its
header occurrences, the blocks joined by newlines.  The code only ever
uses the first occurrence: on `["Projects", "A", "Projects", "B"]` it
returns `"A"`, while the accumulation the claim (and the spec-modelled
segmenter) describes yields `"A\nB"`. -/
theorem C2_counterexample :
    sectionContentLines ["Projects", "A", "Projects", "B"] Category.projects = "A" ∧
    spec_section_content ["Projects", "A", "Projects", "B"] Category.projects = "A\nB" ∧
    ("A" : String) ≠ "A\nB" := by
  refine ⟨by decide, by decide, by decide⟩

/-- C2 (amended): the content of a category is the block of its first
occurrence only — the non-blank lines strictly between the first line
matching the category's patterns and the next boundary line, joined by
newlines and trimmed; later occurrences of the category contribute
nothing. -/
theorem C2_theorem (lines : List String) (c : Category) :
    sectionContentLines lines c =
      (match firstHeaderIdx lines c with
        | none => ""
        | some i => firstBlock lines i) := by
  unfold sectionContentLines firstHeaderIdx firstBlock
  rw [sectionStartAux_eq_findIdx c lines 0]
  cases hfi : lines.findIdx? (fun l => !pyBlank l && headerMatch c l) 0 with
  | none => simp
  | some i =>
    simp only [Option.map_some']
    simp only [findBoundary_eq_findIdx]

/-! ## Claim C10 -/

theorem sectionStartAux_append_skip (c : Category) : ∀ (pre : List String)
    (rest : List String) (i0 : Nat),
    (∀ p ∈ pre, pyBlank p = true ∨ headerMatch c p = false) →
    sectionStartAux c i0 (pre ++ rest) = sectionStartAux c (i0 + pre.length) rest := by
  intro pre
  induction pre with
  | nil => intro rest i0 _; simp [sectionStartAux]
  | cons p ps ih =>
    intro rest i0 hskip
    have hstep : sectionStartAux c i0 ((p :: ps) ++ rest) =
        sectionStartAux c (i0 + 1) (ps ++ rest) := by
      rcases hskip p (List.mem_cons_self p ps) with hb | hm
      · simp [sectionStartAux, hb]
      · by_cases hb : pyBlank p
        · simp [sectionStartAux, hb]
        · simp [sectionStartAux, hb, hm]
    have harith : i0 + (p :: ps).length = i0 + 1 + ps.length := by
      simp only [List.length_cons]
      omega
    rw [hstep, ih rest (i0 + 1) (fun q hq => hskip q (List.mem_cons_of_mem p hq)), harith]

theorem findBoundary_append_skip : ∀ (mid : List String) (rest : List String),
    (∀ m ∈ mid, pyBlank m = true ∨ isBoundaryLine m = false) →
    findBoundary (mid ++ rest) = (findBoundary rest).map (fun n => n + mid.length) := by
  intro mid
  induction mid with
  | nil => intro rest _; simp
  | cons m ms ih =>
    intro rest hskip
    have hm := hskip m (List.mem_cons_self m ms)
    have htail : findBoundary (ms ++ rest) = (findBoundary rest).map (fun n => n + ms.length) :=
      ih rest (fun q hq => hskip q (List.mem_cons_of_mem m hq))
    have step : findBoundary (m :: (ms ++ rest)) = (findBoundary (ms ++ rest)).map (fun n => n + 1) := by
      rcases hm with hb | hnb
      · simp [findBoundary, hb]
      · by_cases hb : pyBlank m
        · simp [findBoundary, hb]
        · simp [findBoundary, hb, hnb]
    rw [List.cons_append, step, htail]
    cases findBoundary rest with
    | none => rfl
    | some n =>
      simp only [Option.map_some', Option.some.injEq, List.length_cons]
      omega

/-- C10 (implicit): a non-blank, all-uppercase line shorter than 50
characters containing an `ALL_SECTION_KEYWORDS` entry in its lowercasing
terminates the running content span even though it matches no registered
header pattern: the extracted content is exactly the non-blank lines
between the category header and that format-detected line. -/
theorem C10_theorem (pre mid post : List String) (c : Category) (h l : String)
    (hpre : ∀ p ∈ pre, pyBlank p = true ∨ headerMatch c p = false)
    (hh1 : pyBlank h = false) (hh2 : headerMatch c h = true)
    (hmid : ∀ m ∈ mid, pyBlank m = true ∨ isBoundaryLine m = false)
    (hl1 : pyBlank l = false) (hl2 : isSectionHeaderLine l = false)
    (hl3 : isFormatHeaderLine l = true) :
    sectionContentLines (pre ++ h :: (mid ++ l :: post)) c =
      String.mk (trimL (joinNL (mid.filter (fun m => !pyBlank m))).data) := by
  have hstart : sectionStartAux c 0 (pre ++ h :: (mid ++ l :: post)) = some (pre.length + 1) := by
    rw [sectionStartAux_append_skip c pre _ 0 hpre]
    simp only [sectionStartAux, hh1, Bool.false_eq_true, if_false, hh2, if_true]
    congr 1
    omega
  have hdrop : (pre ++ h :: (mid ++ l :: post)).drop (pre.length + 1) = mid ++ l :: post := by
    rw [show pre ++ h :: (mid ++ l :: post) = (pre ++ [h]) ++ (mid ++ l :: post) by simp]
    rw [show pre.length + 1 = (pre ++ [h]).length by simp]
    exact List.drop_left _ _
  have hbound : findBoundary (mid ++ l :: post) = some mid.length := by
    rw [findBoundary_append_skip mid (l :: post) hmid]
    have : findBoundary (l :: post) = some 0 := by
      have hbl : isBoundaryLine l = true := by
        unfold isBoundaryLine
        rw [hl2, hl3]
        rfl
      simp [findBoundary, hl1, hbl]
    rw [this]
    simp
  unfold sectionContentLines
  rw [hstart]
  simp only [hdrop, hbound, Option.getD_some]
  rw [show (mid ++ l :: post).take mid.length = mid from by simp]

theorem C10_witness :
    isFormatHeaderLine "AWARDS AND HONORS" = true ∧
    isSectionHeaderLine "AWARDS AND HONORS" = false ∧
    sectionContentLines ["Skills", "Python", "AWARDS AND HONORS", "Chess club"]
      Category.skills = "Python" := by
  refine ⟨by decide, by decide, ?_⟩
  have h := C10_theorem [] ["Python"] ["Chess club"] Category.skills
    "Skills" "AWARDS AND HONORS"
    (by intro p hp; simp at hp)
    (by decide) (by decide)
    (by
      intro m hm
      simp only [List.mem_singleton] at hm
      subst hm
      right
      decide)
    (by decide) (by decide) (by decide)
  exact h.trans (by decide)

/-! ## Claim C6 -/

theorem contains_mk_iff (seen : List String) (x : String) :
    seen.contains x = true ↔ x ∈ seen := by
  simp [List.contains]

theorem dedupAux_sublist (l : List String) : ∀ seen, (dedupAux seen l).Sublist l := by
  induction l with
  | nil => intro seen; simp [dedupAux]
  | cons s rest ih =>
    intro seen
    by_cases h : seen.contains (String.mk (lowerL s.data))
    · simp only [dedupAux, h, if_true]
      exact (ih seen).trans (List.sublist_cons_self s rest)
    · simp only [dedupAux, h, Bool.false_eq_true, if_false]
      exact List.Sublist.cons_cons s (ih _)

theorem dedupAux_notMem_seen (l : List String) : ∀ seen x, x ∈ dedupAux seen l →
    ¬(String.mk (lowerL x.data) ∈ seen) := by
  induction l with
  | nil => intro seen x hx; simp [dedupAux] at hx
  | cons s rest ih =>
    intro seen x hx
    by_cases h : seen.contains (String.mk (lowerL s.data))
    · simp only [dedupAux, h, if_true] at hx
      exact ih seen x hx
    · simp only [dedupAux, h, Bool.false_eq_true, if_false, List.mem_cons] at hx
      rcases hx with rfl | hx'
      · intro hmem
        exact h ((contains_mk_iff seen _).mpr hmem)
      · have := ih _ x hx'
        intro hmem
        exact this (List.mem_cons_of_mem _ hmem)

theorem dedupAux_pairwise (l : List String) : ∀ seen,
    (dedupAux seen l).Pairwise
      (fun a b => String.mk (lowerL a.data) ≠ String.mk (lowerL b.data)) := by
  induction l with
  | nil => intro seen; simp [dedupAux]
  | cons s rest ih =>
    intro seen
    by_cases h : seen.contains (String.mk (lowerL s.data))
    · simp only [dedupAux, h, if_true]
      exact ih seen
    · simp only [dedupAux, h, Bool.false_eq_true, if_false]
      refine List.Pairwise.cons ?_ (ih _)
      intro y hy heq
      have hns := dedupAux_notMem_seen rest _ y hy
      exact hns (heq ▸ List.mem_cons_self _ _)

theorem dedupAux_find (l : List String) : ∀ seen x, x ∈ dedupAux seen l →
    l.find? (fun y => String.mk (lowerL y.data) == String.mk (lowerL x.data)) = some x := by
  induction l with
  | nil => intro seen x hx; simp [dedupAux] at hx
  | cons s rest ih =>
    intro seen x hx
    by_cases h : seen.contains (String.mk (lowerL s.data))
    · simp only [dedupAux, h, if_true] at hx
      have hxs := dedupAux_notMem_seen rest seen x hx
      have hfalse : (String.mk (lowerL s.data) == String.mk (lowerL x.data)) = false := by
        rw [beq_eq_false_iff_ne]
        intro heq
        exact hxs (heq ▸ (contains_mk_iff seen _).mp h)
      simp only [List.find?, hfalse]
      exact ih seen x hx
    · simp only [dedupAux, h, Bool.false_eq_true, if_false, List.mem_cons] at hx
      rcases hx with rfl | hx'
      · simp [List.find?]
      · have hxs := dedupAux_notMem_seen rest _ x hx'
        have hfalse : (String.mk (lowerL s.data) == String.mk (lowerL x.data)) = false := by
          rw [beq_eq_false_iff_ne]
          intro heq
          exact hxs (heq ▸ List.mem_cons_self _ _)
        simp only [List.find?, hfalse]
        exact ih _ x hx'

theorem dedupAux_complete (l : List String) : ∀ seen x, x ∈ l →
    String.mk (lowerL x.data) ∈ seen ∨
    ∃ y ∈ dedupAux seen l, String.mk (lowerL y.data) = String.mk (lowerL x.data) := by
  induction l with
  | nil => intro seen x hx; simp at hx
  | cons s rest ih =>
    intro seen x hx
    rcases List.mem_cons.mp hx with rfl | hx'
    · by_cases h : seen.contains (String.mk (lowerL x.data))
      · exact Or.inl ((contains_mk_iff seen _).mp h)
      · refine Or.inr ⟨x, ?_, rfl⟩
        simp only [dedupAux, h, Bool.false_eq_true, if_false]
        exact List.mem_cons_self _ _
    · by_cases h : seen.contains (String.mk (lowerL s.data))
      · rcases ih seen x hx' with hmem | ⟨y, hy, hly⟩
        · exact Or.inl hmem
        · refine Or.inr ⟨y, ?_, hly⟩
          simp only [dedupAux, h, if_true]
          exact hy
      · rcases ih (String.mk (lowerL s.data) :: seen) x hx' with hmem | ⟨y, hy, hly⟩
        · rcases List.mem_cons.mp hmem with heq | hmem'
          · refine Or.inr ⟨s, ?_, heq.symm⟩
            simp only [dedupAux, h, Bool.false_eq_true, if_false]
            exact List.mem_cons_self _ _
          · exact Or.inl hmem'
        · refine Or.inr ⟨y, ?_, hly⟩
          simp only [dedupAux, h, Bool.false_eq_true, if_false]
          exact List.mem_cons_of_mem _ hy

/-- C6: in both modes the returned skill list is the case-insensitive
deduplication of the candidate list: it is a subsequence of the
candidates (relative order kept), no two kept skills agree up to case,
every kept skill is the *first* candidate with its lowercasing (so the
first-seen original casing survives), every candidate is represented, and
`"Python, python, PYTHON, Java"` parses to `["Python", "Java"]`. -/
theorem C6_theorem (skills_text : String) :
    (parse_skills_from_section skills_text).Sublist (rawCandidates skills_text) ∧
    (parse_skills_from_section skills_text).Pairwise
      (fun a b => String.mk (lowerL a.data) ≠ String.mk (lowerL b.data)) ∧
    (∀ x ∈ parse_skills_from_section skills_text,
      (rawCandidates skills_text).find?
        (fun y => String.mk (lowerL y.data) == String.mk (lowerL x.data)) = some x) ∧
    (∀ x ∈ rawCandidates skills_text, ∃ y ∈ parse_skills_from_section skills_text,
      String.mk (lowerL y.data) = String.mk (lowerL x.data)) ∧
    parse_skills_from_section "Python, python, PYTHON, Java" = ["Python", "Java"] := by
  by_cases h : skills_text = ""
  · subst h
    refine ⟨?_, ?_, ?_, ?_, by decide⟩
    · show (parse_skills_from_section "").Sublist (rawCandidates "")
      have : parse_skills_from_section "" = [] := by decide
      rw [this]
      exact List.nil_sublist _
    · have : parse_skills_from_section "" = [] := by decide
      rw [this]
      simp
    · intro x hx
      have : parse_skills_from_section "" = [] := by decide
      rw [this] at hx
      simp at hx
    · intro x hx
      have : rawCandidates "" = [] := by decide
      rw [this] at hx
      simp at hx
  · have hp : parse_skills_from_section skills_text = dedupCI (rawCandidates skills_text) := by
      unfold parse_skills_from_section
      rw [if_neg h]
    refine ⟨?_, ?_, ?_, ?_, by decide⟩
    · rw [hp]
      exact dedupAux_sublist _ []
    · rw [hp]
      exact dedupAux_pairwise _ []
    · intro x hx
      rw [hp] at hx
      exact dedupAux_find _ [] x hx
    · intro x hx
      rw [hp]
      rcases dedupAux_complete (rawCandidates skills_text) [] x hx with hmem | hex
      · simp at hmem
      · exact hex

theorem C6_witness :
    "Python" ∈ parse_skills_from_section "Python, python, PYTHON, Java" ∧
    (rawCandidates "Python, python, PYTHON, Java").find?
      (fun y => String.mk (lowerL y.data) == String.mk (lowerL "Python".data)) = some "Python" := by
  refine ⟨by decide, ?_⟩
  exact ( C6_theorem "Python, python, PYTHON, Java").2.2.1 "Python" (by decide)

/-! ## Claim C7 -/

/-- C7: a skills block in which the categorized `label: list` shape is
found at least once is parsed entirely in categorized mode: the candidate
list is the concatenation, over the groups in order, of the group's list
portion split on commas/semicolons/pipes/bullets/newlines, keeping each
stripped piece of length strictly between 1 and 50 — the labels are never
consulted as skill sources; every parsed skill is such a trimmed piece of
some group's list portion; and
`"Languages: Python, Java; Tools: Git, Docker"` parses to
`["Python", "Java", "Git", "Docker"]`. -/
theorem C7_theorem :
    (∀ skills_text : String, (catMatches skills_text.data).isEmpty = false →
      parse_skills_from_section skills_text =
        dedupCI ((catMatches skills_text.data).flatMap (fun g =>
          (splitRuns catDelim g.2.data).filterMap (fun part =>
            let cleaned := String.mk (trimL part.data)
            if 1 < cleaned.length && cleaned.length < 50 then some cleaned else none))) ∧
      (∀ sk ∈ parse_skills_from_section skills_text,
        1 < sk.length ∧ sk.length < 50 ∧
        ∃ g ∈ catMatches skills_text.data, ∃ part ∈ splitRuns catDelim g.2.data,
          sk = String.mk (trimL part.data))) ∧
    parse_skills_from_section "Languages: Python, Java; Tools: Git, Docker" =
      ["Python", "Java", "Git", "Docker"] := by
  refine ⟨?_, by decide⟩
  intro skills_text hcat
  have hne : ¬(skills_text = "") := by
    intro h
    subst h
    exact absurd hcat (by decide)
  have hmode : rawCandidates skills_text = catCandidates skills_text := by
    unfold rawCandidates
    rw [hcat]
    simp
  have hp : parse_skills_from_section skills_text = dedupCI (catCandidates skills_text) := by
    unfold parse_skills_from_section
    rw [if_neg hne, hmode]
  constructor
  · rw [hp]
    rfl
  · intro sk hsk
    rw [hp] at hsk
    have hmem : sk ∈ catCandidates skills_text :=
      (dedupAux_sublist (catCandidates skills_text) []).mem hsk
    unfold catCandidates at hmem
    rcases List.mem_flatMap.mp hmem with ⟨g, hg, hsk2⟩
    rcases List.mem_filterMap.mp hsk2 with ⟨part, hpart, hcl⟩
    by_cases hlen : 1 < (String.mk (trimL part.data)).length
        && (String.mk (trimL part.data)).length < 50
    · simp only [hlen, if_true, Option.some.injEq] at hcl
      subst hcl
      simp only [Bool.and_eq_true, decide_eq_true_eq] at hlen
      exact ⟨hlen.1, hlen.2, g, hg, part, hpart, rfl⟩
    · simp only [hlen] at hcl
      simp at hcl

theorem C7_witness :
    (catMatches "Languages: Python, Java; Tools: Git, Docker".data).isEmpty = false ∧
    parse_skills_from_section "Languages: Python, Java; Tools: Git, Docker" =
      dedupCI ((catMatches "Languages: Python, Java; Tools: Git, Docker".data).flatMap (fun g =>
        (splitRuns catDelim g.2.data).filterMap (fun part =>
          let cleaned := String.mk (trimL part.data)
          if 1 < cleaned.length && cleaned.length < 50 then some cleaned else none))) := by
  refine ⟨by decide, ?_⟩
  exact ( C7_theorem.1 "Languages: Python, Java; Tools: Git, Docker" (by decide)).1

end CV
